import Mathlib

/-!
Shallow embedding of the cargo-deb package-build pipeline.

The repository source under verification is the build orchestrator
(`process` in `fuzz_targets/fuzz_process_rand.rs`).  The library
components it calls (compression backend, tar builders, control
archive builder, outer `ar` container assembler) are not part of the
source tree here; they are modelled from the specification, each such
definition carrying a doc comment starting with `Modelled from the
spec:`.  Machine integers are modelled as `Nat`; byte streams as
`List Nat`; fallible calls as `Except CargoDebError`.
-/

/-- A byte stream: each element is one byte value. -/
abbrev Bytes := List Nat

/-- UTF-8-ish byte rendering of a string (code points; all strings used
in the model are ASCII, where this coincides with the real encoding). -/
def strBytes (s : String) : Bytes := s.data.map Char.toNat

/-- Error taxonomy of the pipeline (spec section 7). -/
inductive CargoDebError where
  | configInvalid
  | assetUnreadable
  | duplicateTargetPath
  | symlinkTargetInvalid
  | compressionUnavailable
  | compressionIo
  | invalidBuilderState
  | outputWriteFailed
deriving DecidableEq

/-- The two supported compression formats. -/
inductive Format where
  | gz
  | xz
deriving DecidableEq

/-- Canonical filename extension of a format. -/
def Format.extension : Format → String
  | .gz => "gz"
  | .xz => "xz"

/-- Environment facts the pipeline depends on: whether the external
system xz tool is present. -/
structure Env where
  xz_tool_available : Bool
deriving DecidableEq

/-- Modelled from the spec: `compress::xz_or_gz(fast, system_xz)`
(Compression Backend selection, spec section 4.1).  The fast policy
selects the gzip-compatible format; otherwise the xz-compatible one,
which may be satisfied by an external tool when `system_xz` is set and
fails with `CompressionUnavailable` when that tool is required but not
found. -/
def compress.xz_or_gz (fast system_xz : Bool) (env : Env) : Except CargoDebError Format :=
  if fast then Except.ok Format.gz
  else if system_xz && !env.xz_tool_available then Except.error CargoDebError.compressionUnavailable
  else Except.ok Format.xz

/-- Magic prefix of each compressed stream. -/
def compressMagic : Format → Bytes
  | .gz => [31, 139]
  | .xz => [253, 55, 122, 88, 90, 0]

/-- Modelled from the spec: the Compression Backend's byte-stream
transformation.  Only determinism and format tagging are relied upon,
so the stream is represented as the format's magic prefix followed by
the input bytes. -/
def compressBytes (fmt : Format) (b : Bytes) : Bytes := compressMagic fmt ++ b

/-- An open compression sink holding the bytes written so far
(spec section 4.1: a sink that accepts a byte stream). -/
structure Compressed where
  format : Format
  uncompressed : Bytes
deriving DecidableEq

/-- Total number of bytes written into the sink. -/
def Compressed.uncompressed_size (c : Compressed) : Nat := c.uncompressed.length

/-- A finished compressed blob (spec data model: raw bytes plus chosen
format; the uncompressed count is recoverable from the sink). -/
structure CompressedBlob where
  format : Format
  bytes : Bytes
deriving DecidableEq

/-- Modelled from the spec: closing the sink yields the CompressedBlob. -/
def Compressed.finish (c : Compressed) : CompressedBlob :=
  ⟨c.format, compressBytes c.format c.uncompressed⟩

/-- Extension reported by a finished blob. -/
def CompressedBlob.extension (b : CompressedBlob) : String := b.format.extension

/-- Byte length of the finished blob. -/
def CompressedBlob.len (b : CompressedBlob) : Nat := b.bytes.length

/-- Kind of an installable item. -/
inductive AssetKind where
  | regularFile
  | symlink
  | directory
deriving DecidableEq

/-- One installable item: resolved source content, target install path,
unix mode, and kind (spec data model). -/
structure Asset where
  target : String
  content : Bytes
  mode : Nat
  kind : AssetKind
deriving DecidableEq

/-- Target path plus content checksum, produced while writing an Asset
into the data sub-archive (spec data model `AssetDigest`). -/
structure AssetDigest where
  path : String
  digest : Nat
deriving DecidableEq

/-- Drop leading slash characters from a character list. -/
def dropLeadingSlashes : List Char → List Char
  | [] => []
  | c :: cs => if c = '/' then dropLeadingSlashes cs else c :: cs

/-- Modelled from the spec: target-path normalization.  Scenario A
lists asset `/usr/bin/app` as `usr/bin/app` in the checksum listing, so
normalization strips leading slashes. -/
def normalizePath (p : String) : String := ⟨dropLeadingSlashes p.data⟩

/-- Modelled from the spec: the content checksum digest.  Only
determinism in the content bytes is relied upon, so it is a fold over
the bytes reduced modulo 2^32. -/
def md5sum (content : Bytes) : Nat :=
  content.foldl (fun h b => (h * 131 + b) % (2 ^ 32)) 5381

/-- Concatenation of the images of a list under a list-valued map. -/
def concatMap (f : α → List β) : List α → List β
  | [] => []
  | x :: xs => f x ++ concatMap f xs

/-- First-occurrence deduplication with an accumulator of already-seen
elements. -/
def dedupAcc [DecidableEq α] (seen : List α) : List α → List α
  | [] => []
  | x :: xs => if x ∈ seen then dedupAcc seen xs else x :: dedupAcc (x :: seen) xs

/-- Pad a byte stream with zeros to the tar block size of 512. -/
def pad512 (b : Bytes) : Bytes := b ++ List.replicate ((512 - b.length % 512) % 512) 0

/-- Modelled from the spec: one tar entry header block (name, shared
Timestamp, mode, payload length, entry-type flag), padded to the
512-byte block size. -/
def tarHeader (name : String) (ts mode len typeflag : Nat) : Bytes :=
  pad512 (strBytes name ++ [0] ++ strBytes (toString mode) ++ [0] ++
    strBytes (toString ts) ++ [0] ++ strBytes (toString len) ++ [0, typeflag])

/-- Modelled from the spec: one regular tar entry: header block plus
content padded to the block size. -/
def tarEntry (name : String) (ts mode : Nat) (content : Bytes) : Bytes :=
  tarHeader name ts mode content.length 0 ++ pad512 content

/-- Modelled from the spec: an explicit directory entry. -/
def tarDirEntry (name : String) (ts : Nat) : Bytes :=
  tarHeader name ts 493 0 5

/-- Modelled from the spec: tar end-of-archive marker, two zero blocks. -/
def tarFinish : Bytes := List.replicate 1024 0

/-- Lexicographic order on byte streams. -/
def bytesLe : List Nat → List Nat → Bool
  | [], _ => true
  | _ :: _, [] => false
  | a :: as, b :: bs => decide (a < b) || (a == b && bytesLe as bs)

/-- Lexicographic order on strings via their bytes. -/
def strLe (s t : String) : Bool := bytesLe (strBytes s) (strBytes t)

/-- Insert an asset into a list sorted ascending by target path. -/
def insertSorted (a : Asset) : List Asset → List Asset
  | [] => [a]
  | b :: bs => if strLe a.target b.target then a :: b :: bs else b :: insertSorted a bs

/-- Modelled from the spec: the Data Builder's defined deterministic
order, ascending by target path (insertion sort). -/
def sortedAssets : List Asset → List Asset
  | [] => []
  | a :: as => insertSorted a (sortedAssets as)

/-- Split a character list on slash characters; the accumulator holds
the current component reversed. -/
def splitSlash (acc : List Char) : List Char → List (List Char)
  | [] => [acc.reverse]
  | c :: cs => if c = '/' then acc.reverse :: splitSlash [] cs else splitSlash (c :: acc) cs

/-- Join path components with slashes. -/
def joinSlash : List (List Char) → List Char
  | [] => []
  | [x] => x
  | x :: xs => x ++ '/' :: joinSlash xs

/-- Proper ancestor directories of a normalized target path, topmost
first. -/
def parentDirs (p : String) : List String :=
  let parts := splitSlash [] (normalizePath p).data
  (List.range (parts.length - 1)).map (fun i => ⟨joinSlash (parts.take (i + 1))⟩)

/-- Modelled from the spec: directories implied by nested target paths,
each exactly once even if shared by several assets. -/
def impliedDirectories (assets : List Asset) : List String :=
  dedupAcc [] (concatMap (fun a => parentDirs a.target) assets)

/-- Tar entry-type flag of an asset kind. -/
def assetTypeflag : AssetKind → Nat
  | .regularFile => 0
  | .symlink => 2
  | .directory => 5

/-- Modelled from the spec: serialization of one Asset into the data
sub-archive at its normalized target path with its mode and kind. -/
def assetEntry (a : Asset) (ts : Nat) : Bytes :=
  tarHeader (normalizePath a.target) ts a.mode a.content.length (assetTypeflag a.kind) ++
    pad512 a.content

/-- Modelled from the spec: full uncompressed byte stream of the data
sub-archive: implied directories first, then every asset in the sorted
order, then the end-of-archive marker. -/
def dataTarBody (assets : List Asset) (ts : Nat) : Bytes :=
  concatMap (fun d => tarDirEntry d ts) (impliedDirectories (sortedAssets assets)) ++
    concatMap (fun a => assetEntry a ts) (sortedAssets assets) ++ tarFinish

/-- Modelled from the spec: digest mapping produced as a side effect of
writing the assets, in the Data Builder's order. -/
def assetHashes (assets : List Asset) : List AssetDigest :=
  (sortedAssets assets).map (fun a => ⟨normalizePath a.target, md5sum a.content⟩)

/-- Modelled from the spec: `data::generate_archive` (Data Sub-Archive
Builder, spec section 4.2).  Fails with `DuplicateTargetPath` when two
assets collide after normalization; otherwise returns the sink holding
the tar stream plus the digest mapping. -/
def data.generate_archive (fmt : Format) (assets : List Asset) (ts : Nat) :
    Except CargoDebError (Compressed × List AssetDigest) :=
  if ((sortedAssets assets).map (fun a => normalizePath a.target)).Nodup then
    Except.ok (⟨fmt, dataTarBody assets ts⟩, assetHashes assets)
  else Except.error CargoDebError.duplicateTargetPath

/-- Immutable description of the package (spec data model), read-only
to the core. -/
structure PackageMetadata where
  name : String
  version : String
  revision : String
  architecture : String
  maintainer : String
  description : String
  maintainer_scripts : List (String × Bytes)
  conffiles : List String
deriving DecidableEq

/-- Resolved configuration handed to the core by upstream collaborators
(manifest parsing and asset resolution are external, spec section 1):
metadata, resolved asset list, the build-wide timestamp read once at
`options.default_timestamp`, and the configured output path. -/
structure Config where
  metadata : PackageMetadata
  assets : List Asset
  default_timestamp : Nat
  output_path : String
deriving DecidableEq

/-- Modelled from the spec: rendering of the control file from
PackageMetadata. -/
def renderControl (md : PackageMetadata) : Bytes :=
  strBytes ("Package: " ++ md.name ++ "\nVersion: " ++ md.version ++ "-" ++ md.revision ++
    "\nArchitecture: " ++ md.architecture ++ "\nMaintainer: " ++ md.maintainer ++
    "\nDescription: " ++ md.description ++ "\n")

/-- Serialized conffiles list, one path per line. -/
def conffilesBytes (cs : List String) : Bytes :=
  strBytes (String.join (cs.map (fun c => c ++ "\n")))

/-- Modelled from the spec: the static control entries written by
`generate_archive` (control file rendered from PackageMetadata, then
maintainer scripts, then the conffiles list), in a deterministic order
under the build-wide Timestamp. -/
def controlEntries (cfg : Config) (ts : Nat) : Bytes :=
  tarEntry "control" ts 420 (renderControl cfg.metadata) ++
    concatMap (fun sc => tarEntry sc.1 ts 493 sc.2) cfg.metadata.maintainer_scripts ++
    (if cfg.metadata.conffiles.isEmpty then []
     else tarEntry "conffiles" ts 420 (conffilesBytes cfg.metadata.conffiles))

/-- Modelled from the spec: the checksum listing, serializing every
AssetDigest as digest, two spaces, target path, newline, in the Data
Builder's order. -/
def md5sumsListing (hashes : List AssetDigest) : Bytes :=
  concatMap (fun e => strBytes (toString e.digest ++ "  " ++ e.path ++ "\n")) hashes

/-- The Control Sub-Archive Builder's explicit state machine
(spec section 4.3). -/
inductive BuilderState where
  | created
  | populated
  | finalizable
  | closed
deriving DecidableEq

/-- Modelled from the spec: `ControlArchiveBuilder` — compression sink
format, build-wide timestamp, protocol state, and the tar entry bytes
accumulated so far. -/
structure ControlArchiveBuilder where
  format : Format
  timestamp : Nat
  state : BuilderState
  entries : Bytes
deriving DecidableEq

/-- Modelled from the spec: a fresh builder over a compression sink and
the build-wide timestamp. -/
def ControlArchiveBuilder.new (fmt : Format) (ts : Nat) : ControlArchiveBuilder :=
  ⟨fmt, ts, BuilderState.created, []⟩

/-- Modelled from the spec: state Created to Populated — write every
static control entry; out-of-order use fails with
`InvalidBuilderState`. -/
def ControlArchiveBuilder.generate_archive (b : ControlArchiveBuilder) (cfg : Config) :
    Except CargoDebError ControlArchiveBuilder :=
  match b.state with
  | .created =>
      Except.ok { b with state := BuilderState.populated,
                         entries := b.entries ++ controlEntries cfg b.timestamp }
  | _ => Except.error CargoDebError.invalidBuilderState

/-- Modelled from the spec: state Populated to Finalizable — append
exactly one entry, the checksum listing; calling twice or before
`generate_archive` fails with `InvalidBuilderState`. -/
def ControlArchiveBuilder.generate_md5sums (b : ControlArchiveBuilder) (cfg : Config)
    (hashes : List AssetDigest) : Except CargoDebError ControlArchiveBuilder :=
  match cfg, b.state with
  | _, .populated =>
      Except.ok { b with state := BuilderState.finalizable,
                         entries := b.entries ++
                           tarEntry "md5sums" b.timestamp 420 (md5sumsListing hashes) }
  | _, _ => Except.error CargoDebError.invalidBuilderState

/-- Modelled from the spec: state Finalizable to Closed — close the tar
layer (appending the end-of-archive marker) and hand back the sink;
any further calls on the builder fail with `InvalidBuilderState`. -/
def ControlArchiveBuilder.finish (b : ControlArchiveBuilder) :
    Except CargoDebError (Compressed × ControlArchiveBuilder) :=
  match b.state with
  | .finalizable =>
      Except.ok (⟨b.format, b.entries ++ tarFinish⟩, { b with state := BuilderState.closed })
  | _ => Except.error CargoDebError.invalidBuilderState

/-- One member of the outer ar container: name, timestamp, payload
(spec data model). -/
structure ArMember where
  name : String
  timestamp : Nat
  payload : Bytes
deriving DecidableEq

/-- Modelled from the spec: the Outer Container Assembler, accumulating
members in call order at a configured output path; it does not itself
enforce member order (spec section 4.4). -/
structure DebArchive where
  out_path : String
  members : List ArMember
deriving DecidableEq

/-- Modelled from the spec: assembler writing to the configured output
path (a temporary location until promoted by finish). -/
def DebArchive.new (cfg : Config) : DebArchive := ⟨cfg.output_path, []⟩

/-- Modelled from the spec: append one member in call order.  Plain
filesystem failures (`OutputWriteFailed`) have no counterpart in the
pure model. -/
def DebArchive.add_data (a : DebArchive) (name : String) (ts : Nat) (payload : Bytes) :
    DebArchive :=
  { a with members := a.members ++ [⟨name, ts, payload⟩] }

/-- Serialization of one ar member: fixed-format header (name,
timestamp, owner and mode constants, byte length), the raw bytes, and
padding to 2-byte alignment. -/
def arMemberBytes (m : ArMember) : Bytes :=
  strBytes m.name ++ [0] ++ strBytes (toString m.timestamp) ++ [0] ++
    strBytes "0 0 100644" ++ [0] ++ strBytes (toString m.payload.length) ++ [0] ++
    m.payload ++ (if m.payload.length % 2 = 1 then [10] else [])

/-- Modelled from the spec: full ar-format byte stream of the outer
container: global magic then each member in sequence. -/
def arSerialize (ms : List ArMember) : Bytes :=
  strBytes "!<arch>\n" ++ concatMap arMemberBytes ms

/-- The filesystem facts the pipeline touches: whether the scratch
(deb temp) directory currently exists, and the contents promoted to the
configured output path, kept as the member list of the written
container (its bytes are `arSerialize`). -/
structure World where
  scratchDirExists : Bool
  outputFile : Option (List ArMember)
deriving DecidableEq

/-- A fresh world: no scratch directory, no output file. -/
def World.init : World := ⟨false, none⟩

/-- Observable events of one run, in order: listener warnings, the two
joined tasks completing, assembler member additions, the compression
ratio report at the `listener.info` call site, the assembler finishing,
and the final path print. -/
inductive Event where
  | warning (msg : String)
  | controlTaskDone
  | dataTaskDone
  | addData (name : String)
  | ratioReported (compressed original : Nat)
  | assemblerFinished
  | printedPath (path : String)
deriving DecidableEq

/-- The CLI options structure of the source (lines 9-28). -/
structure CliOptions where
  no_build : Bool
  strip_override : Option Bool
  separate_debug_symbols : Bool
  fast : Bool
  verbose : Bool
  quiet : Bool
  install : Bool
  selected_package_name : Option String
  output_path : Option String
  variant : Option String
  target : Option String
  manifest_path : Option String
  cargo_build_cmd : String
  cargo_build_flags : List String
  deb_version : Option String
  deb_revision : Option String
  system_xz : Bool
  profile : Option String
deriving DecidableEq

/-- Profile selection (source line 79): the given profile or release. -/
def selectedProfile (profile : Option String) : String := profile.getD "release"

/-- Warnings printed for the dev profile (source lines 80-84); the
no-op listener installed under quiet drops them. -/
def profileWarnings (opts : CliOptions) : List Event :=
  if selectedProfile opts.profile = "dev" && !opts.quiet then
    [Event.warning "dev profile is not supported and will be a hard error in the future.",
     Event.warning "To enable debug symbols set profile.release debugatrue instead."]
  else []

/-- Build-flag preparation (source lines 60-62 and 85): drop a leading
deb argument and append the profile flag. -/
def buildFlags (opts : CliOptions) : List String :=
  (if opts.cargo_build_flags.head? = some "deb" then opts.cargo_build_flags.tail
   else opts.cargo_build_flags) ++ ["--profile=" ++ selectedProfile opts.profile]

/-- Completion events of the two rayon-joined tasks; `order` is the
schedule, i.e. which task happens to complete first. -/
def rayonJoinEvents (order : Bool) : List Event :=
  if order then [Event.controlTaskDone, Event.dataTaskDone]
  else [Event.dataTaskDone, Event.controlTaskDone]

/-- The control-side task of the join (source lines 122-127): build a
compression sink, create the builder, populate the static entries. -/
def controlTask (opts : CliOptions) (cfg : Config) (env : Env) (ts : Nat) :
    Except CargoDebError ControlArchiveBuilder :=
  match compress.xz_or_gz opts.fast opts.system_xz env with
  | .error e => Except.error e
  | .ok sink => (ControlArchiveBuilder.new sink ts).generate_archive cfg

/-- The data-side task of the join (source lines 128-133): build a
compression sink, generate the data archive, record the uncompressed
size, close the sink. -/
def dataTask (opts : CliOptions) (cfg : Config) (env : Env) (ts : Nat) :
    Except CargoDebError (CompressedBlob × Nat × List AssetDigest) :=
  match compress.xz_or_gz opts.fast opts.system_xz env with
  | .error e => Except.error e
  | .ok sink =>
    match data.generate_archive sink cfg.assets ts with
    | .error e => Except.error e
    | .ok (compressed, asset_hashes) =>
      let original_data_size := compressed.uncompressed_size
      Except.ok (compressed.finish, original_data_size, asset_hashes)

/-- The build orchestrator, embedding `process` (source lines 34-165).
Upstream collaborators excluded by the spec (manifest parsing into
`cfg`, `cargo_build`, asset resolution, stripping, `install_deb`) are
external; `env` is the tool environment, `order` the join schedule, `w`
the filesystem state threaded explicitly.  Returns the final world, the
event trace, and the result. -/
def process (opts : CliOptions) (cfg : Config) (env : Env) (order : Bool) (w : World) :
    World × List Event × Except CargoDebError Unit :=
  let ev0 := profileWarnings opts
  let w1 : World := { w with scratchDirExists := true }
  let default_timestamp := cfg.default_timestamp
  let ev1 := ev0 ++ rayonJoinEvents order
  match controlTask opts cfg env default_timestamp with
  | .error e => (w1, ev1, Except.error e)
  | .ok control_builder =>
    match dataTask opts cfg env default_timestamp with
    | .error e => (w1, ev1, Except.error e)
    | .ok (data_compressed, original_data_size, asset_hashes) =>
      match control_builder.generate_md5sums cfg asset_hashes with
      | .error e => (w1, ev1, Except.error e)
      | .ok cb2 =>
        match cb2.finish with
        | .error e => (w1, ev1, Except.error e)
        | .ok (cw, _closed) =>
          let control_compressed := cw.finish
          let deb0 := DebArchive.new cfg
          let deb1 := deb0.add_data "debian-binary" default_timestamp (strBytes "2.0\n")
          let deb2 := deb1.add_data ("control.tar." ++ control_compressed.extension)
            default_timestamp control_compressed.bytes
          let compressed_data_size := data_compressed.len
          let ev2 := ev1 ++ [Event.addData "debian-binary",
            Event.addData ("control.tar." ++ control_compressed.extension),
            Event.ratioReported compressed_data_size original_data_size,
            Event.addData ("data.tar." ++ data_compressed.extension)]
          let deb3 := deb2.add_data ("data.tar." ++ data_compressed.extension)
            default_timestamp data_compressed.bytes
          let w2 : World := { w1 with outputFile := some deb3.members }
          let generated := deb3.out_path
          let ev3 := ev2 ++ [Event.assemblerFinished] ++
            (if opts.quiet then [] else [Event.printedPath generated])
          let w3 : World := { w2 with scratchDirExists := false }
          (w3, ev3, Except.ok ())

/-- The control sub-archive blob a successful build produces: static
entries, then the checksum listing, then the tar end marker, closed
through the compression sink. -/
def controlBlob (cfg : Config) (fmt : Format) : CompressedBlob :=
  Compressed.finish ⟨fmt, (controlEntries cfg cfg.default_timestamp ++
    tarEntry "md5sums" cfg.default_timestamp 420
      (md5sumsListing (assetHashes cfg.assets))) ++ tarFinish⟩

/-- The data sub-archive blob a successful build produces. -/
def dataBlob (cfg : Config) (fmt : Format) : CompressedBlob :=
  Compressed.finish ⟨fmt, dataTarBody cfg.assets cfg.default_timestamp⟩

/-- Member list of the outer container written by a successful build. -/
def successMembers (cfg : Config) (fmt : Format) : List ArMember :=
  [⟨"debian-binary", cfg.default_timestamp, strBytes "2.0\n"⟩,
   ⟨"control.tar." ++ fmt.extension, cfg.default_timestamp, (controlBlob cfg fmt).bytes⟩,
   ⟨"data.tar." ++ fmt.extension, cfg.default_timestamp, (dataBlob cfg fmt).bytes⟩]

/-- Events emitted by a run that fails inside the pipeline: the profile
warnings and the two join completions. -/
def errEvents (opts : CliOptions) (order : Bool) : List Event :=
  profileWarnings opts ++ rayonJoinEvents order

/-- Full event trace of a successful run. -/
def successEvents (opts : CliOptions) (cfg : Config) (order : Bool) (fmt : Format) :
    List Event :=
  errEvents opts order ++
    [Event.addData "debian-binary", Event.addData ("control.tar." ++ fmt.extension),
     Event.ratioReported (dataBlob cfg fmt).len
       (dataTarBody cfg.assets cfg.default_timestamp).length,
     Event.addData ("data.tar." ++ fmt.extension)] ++
    [Event.assemblerFinished] ++
    (if opts.quiet then [] else [Event.printedPath cfg.output_path])

/-- Whether a trace contains a ratio report. -/
def containsRatio : List Event → Bool
  | [] => false
  | Event.ratioReported _ _ :: _ => true
  | _ :: rest => containsRatio rest

/-- Whether a trace contains the assembler finishing. -/
def containsFinished : List Event → Bool
  | [] => false
  | Event.assemblerFinished :: _ => true
  | _ :: rest => containsFinished rest

/-- Whether some assembler-finish event is later followed by a ratio
report. -/
def existsFinishThenRatio : List Event → Bool
  | [] => false
  | Event.assemblerFinished :: rest => containsRatio rest || existsFinishThenRatio rest
  | _ :: rest => existsFinishThenRatio rest

/-- Whether some ratio report is later followed by an assembler-finish
event. -/
def existsRatioThenFinish : List Event → Bool
  | [] => false
  | Event.ratioReported _ _ :: rest => containsFinished rest || existsRatioThenFinish rest
  | _ :: rest => existsRatioThenFinish rest

/-- Concrete metadata for witnesses (Scenario A flavour). -/
def metadata0 : PackageMetadata :=
  ⟨"demo", "1.0", "1", "amd64", "maintainer", "a demo package", [], []⟩

/-- Concrete single asset for witnesses. -/
def asset0 : Asset := ⟨"app", [111, 107, 10], 493, AssetKind.regularFile⟩

/-- Concrete configuration whose build succeeds. -/
def cfg0 : Config := ⟨metadata0, [asset0], 1, "demo.deb"⟩

/-- First of two assets sharing a normalized target path (Scenario B). -/
def assetDupA : Asset := ⟨"/usr/share/doc/readme", [97], 420, AssetKind.regularFile⟩

/-- Second of two assets sharing a normalized target path. -/
def assetDupB : Asset := ⟨"usr/share/doc/readme", [98], 420, AssetKind.regularFile⟩

/-- Concrete configuration with a duplicate normalized target path. -/
def cfgDup : Config := ⟨metadata0, [assetDupA, assetDupB], 1, "demo.deb"⟩

/-- Concrete CLI options: quiet build with the fast (gzip) policy. -/
def opts0 : CliOptions :=
  ⟨true, none, false, true, false, true, false, none, none, none, none, none,
   "build", [], none, none, false, none⟩

/-- Concrete environment with the system xz tool present. -/
def env0 : Env := ⟨true⟩

/-- A control builder in the Populated state, for witnesses. -/
def bPop : ControlArchiveBuilder := ⟨Format.gz, 0, BuilderState.populated, []⟩

/-- A control builder in the Finalizable state, for witnesses. -/
def bFin : ControlArchiveBuilder := ⟨Format.gz, 0, BuilderState.finalizable, []⟩

theorem controlTask_err (opts : CliOptions) (cfg : Config) (env : Env) (ts : Nat)
    (e : CargoDebError) (h : compress.xz_or_gz opts.fast opts.system_xz env = Except.error e) :
    controlTask opts cfg env ts = Except.error e := by
  simp [controlTask, h]

theorem controlTask_ok (opts : CliOptions) (cfg : Config) (env : Env) (ts : Nat)
    (fmt : Format) (h : compress.xz_or_gz opts.fast opts.system_xz env = Except.ok fmt) :
    controlTask opts cfg env ts =
      Except.ok ⟨fmt, ts, BuilderState.populated, controlEntries cfg ts⟩ := by
  simp [controlTask, h, ControlArchiveBuilder.new, ControlArchiveBuilder.generate_archive]

theorem dataTask_err (opts : CliOptions) (cfg : Config) (env : Env) (ts : Nat)
    (e : CargoDebError) (h : compress.xz_or_gz opts.fast opts.system_xz env = Except.error e) :
    dataTask opts cfg env ts = Except.error e := by
  simp [dataTask, h]

theorem dataTask_dup (opts : CliOptions) (cfg : Config) (env : Env) (ts : Nat)
    (fmt : Format) (h : compress.xz_or_gz opts.fast opts.system_xz env = Except.ok fmt)
    (hdup : ¬ ((sortedAssets cfg.assets).map (fun a => normalizePath a.target)).Nodup) :
    dataTask opts cfg env ts = Except.error CargoDebError.duplicateTargetPath := by
  simp [dataTask, h, data.generate_archive, hdup]

theorem dataTask_ok (opts : CliOptions) (cfg : Config) (env : Env) (ts : Nat)
    (fmt : Format) (h : compress.xz_or_gz opts.fast opts.system_xz env = Except.ok fmt)
    (hnd : ((sortedAssets cfg.assets).map (fun a => normalizePath a.target)).Nodup) :
    dataTask opts cfg env ts =
      Except.ok (Compressed.finish ⟨fmt, dataTarBody cfg.assets ts⟩,
        (dataTarBody cfg.assets ts).length, assetHashes cfg.assets) := by
  simp [dataTask, h, data.generate_archive, hnd, Compressed.uncompressed_size]

theorem process_err_compression (opts : CliOptions) (cfg : Config) (env : Env)
    (order : Bool) (w : World) (e : CargoDebError)
    (h : compress.xz_or_gz opts.fast opts.system_xz env = Except.error e) :
    process opts cfg env order w =
      ({ w with scratchDirExists := true }, errEvents opts order, Except.error e) := by
  simp [process, controlTask_err opts cfg env cfg.default_timestamp e h, errEvents]

theorem process_err_dup (opts : CliOptions) (cfg : Config) (env : Env)
    (order : Bool) (w : World) (fmt : Format)
    (h : compress.xz_or_gz opts.fast opts.system_xz env = Except.ok fmt)
    (hdup : ¬ ((sortedAssets cfg.assets).map (fun a => normalizePath a.target)).Nodup) :
    process opts cfg env order w =
      ({ w with scratchDirExists := true }, errEvents opts order,
        Except.error CargoDebError.duplicateTargetPath) := by
  simp [process, controlTask_ok opts cfg env cfg.default_timestamp fmt h,
    dataTask_dup opts cfg env cfg.default_timestamp fmt h hdup, errEvents]

theorem process_success_eq (opts : CliOptions) (cfg : Config) (env : Env)
    (order : Bool) (w : World) (fmt : Format)
    (h : compress.xz_or_gz opts.fast opts.system_xz env = Except.ok fmt)
    (hnd : ((sortedAssets cfg.assets).map (fun a => normalizePath a.target)).Nodup) :
    process opts cfg env order w =
      (⟨false, some (successMembers cfg fmt)⟩, successEvents opts cfg order fmt,
        Except.ok ()) := by
  simp only [process, controlTask_ok opts cfg env cfg.default_timestamp fmt h,
    dataTask_ok opts cfg env cfg.default_timestamp fmt h hnd,
    ControlArchiveBuilder.generate_md5sums, ControlArchiveBuilder.finish,
    Compressed.finish, CompressedBlob.extension, CompressedBlob.len,
    DebArchive.new, DebArchive.add_data, Format.extension,
    successMembers, successEvents, errEvents, controlBlob, dataBlob, compressBytes]
  simp [List.append_assoc]

theorem process_ok_inv (opts : CliOptions) (cfg : Config) (env : Env)
    (order : Bool) (w : World)
    (h : (process opts cfg env order w).2.2 = Except.ok ()) :
    ∃ fmt, compress.xz_or_gz opts.fast opts.system_xz env = Except.ok fmt ∧
      ((sortedAssets cfg.assets).map (fun a => normalizePath a.target)).Nodup := by
  cases hx : compress.xz_or_gz opts.fast opts.system_xz env with
  | error e =>
    rw [process_err_compression opts cfg env order w e hx] at h
    simp at h
  | ok fmt =>
    by_cases hnd : ((sortedAssets cfg.assets).map (fun a => normalizePath a.target)).Nodup
    · exact ⟨fmt, rfl, hnd⟩
    · rw [process_err_dup opts cfg env order w fmt hx hnd] at h
      simp at h

theorem process_ok_shape (opts : CliOptions) (cfg : Config) (env : Env)
    (order : Bool) (w : World)
    (h : (process opts cfg env order w).2.2 = Except.ok ()) :
    ∃ fmt, (process opts cfg env order w).1 = ⟨false, some (successMembers cfg fmt)⟩ ∧
      (process opts cfg env order w).2.1 = successEvents opts cfg order fmt := by
  obtain ⟨fmt, hx, hnd⟩ := process_ok_inv opts cfg env order w h
  rw [process_success_eq opts cfg env order w fmt hx hnd]
  exact ⟨fmt, rfl, rfl⟩

theorem insertSorted_perm (a : Asset) (l : List Asset) :
    (insertSorted a l).Perm (a :: l) := by
  induction l with
  | nil => simp [insertSorted]
  | cons b bs ih =>
    by_cases hle : strLe a.target b.target
    · simp [insertSorted, hle]
    · simp only [insertSorted, hle, Bool.false_eq_true, if_false]
      exact (ih.cons b).trans (List.Perm.swap a b bs)

theorem sortedAssets_perm (l : List Asset) : (sortedAssets l).Perm l := by
  induction l with
  | nil => simp [sortedAssets]
  | cons a as ih =>
    exact (insertSorted_perm a (sortedAssets as)).trans (ih.cons a)

theorem filter_hashes (l : List Asset)
    (hn : (l.map (fun a => normalizePath a.target)).Nodup) :
    ∀ a ∈ l, ((l.map (fun b => (⟨normalizePath b.target, md5sum b.content⟩ : AssetDigest))).filter
      (fun e => e.path == normalizePath a.target))
        = [⟨normalizePath a.target, md5sum a.content⟩] := by
  induction l with
  | nil => intro a ha; simp at ha
  | cons b t ih =>
    intro a ha
    simp only [List.map_cons, List.nodup_cons, List.mem_map] at hn
    rcases List.mem_cons.mp ha with hab | hat
    · subst hab
      have hnil : (t.map (fun b => (⟨normalizePath b.target, md5sum b.content⟩ : AssetDigest))).filter
          (fun e => e.path == normalizePath a.target) = [] := by
        apply List.filter_eq_nil_iff.mpr
        intro e he
        obtain ⟨x, hx, hex⟩ := List.mem_map.mp he
        subst hex
        simp only [beq_iff_eq]
        intro hcontra
        exact hn.1 ⟨x, hx, hcontra⟩
      rw [List.map_cons, List.filter_cons_of_pos (by simp), hnil]
    · have hne : ¬ (normalizePath b.target = normalizePath a.target) := by
        intro hcontra
        exact hn.1 ⟨a, hat, hcontra.symm⟩
      rw [List.map_cons, List.filter_cons_of_neg (by simp [hne])]
      exact ih hn.2 a hat

theorem dataTarBody_length_pos (assets : List Asset) (ts : Nat) :
    0 < (dataTarBody assets ts).length := by
  unfold dataTarBody
  rw [List.length_append, List.length_append]
  have h : tarFinish.length = 1024 := by rw [tarFinish, List.length_replicate]
  omega

theorem ratio_not_in_errEvents (opts : CliOptions) (order : Bool) (c o : Nat) :
    Event.ratioReported c o ∉ errEvents opts order := by
  simp only [errEvents, profileWarnings, rayonJoinEvents, List.mem_append]
  rintro (h | h) <;> revert h <;> split <;> simp

theorem containsFinished_cons_addData (n : String) (t : List Event) :
    containsFinished (Event.addData n :: t) = containsFinished t := rfl

theorem existsRatioThenFinish_append (l₁ l₂ : List Event) (c o : Nat)
    (h : containsFinished l₂ = true) :
    existsRatioThenFinish (l₁ ++ Event.ratioReported c o :: l₂) = true := by
  induction l₁ with
  | nil => simp [existsRatioThenFinish, h]
  | cons e t ih => cases e <;> simp [existsRatioThenFinish, ih, containsFinished]

/-- Claim C1: for every pair of runs of the build pipeline given
identical PackageMetadata, identical Asset list, and the same
build-wide Timestamp (all carried by `cfg`), the two runs produce
byte-identical output package files — in particular the join schedule
`order`, which does change the observable event trace, never leaks into
the artifact. -/
theorem build_deterministic (opts : CliOptions) (cfg : Config) (env : Env)
    (o₁ o₂ : Bool) (w : World) :
    ((process opts cfg env o₁ w).1.outputFile).map arSerialize
      = ((process opts cfg env o₂ w).1.outputFile).map arSerialize := by
  cases hx : compress.xz_or_gz opts.fast opts.system_xz env with
  | error e =>
    rw [process_err_compression opts cfg env o₁ w e hx,
      process_err_compression opts cfg env o₂ w e hx]
  | ok fmt =>
    by_cases hnd : ((sortedAssets cfg.assets).map (fun a => normalizePath a.target)).Nodup
    · rw [process_success_eq opts cfg env o₁ w fmt hx hnd,
        process_success_eq opts cfg env o₂ w fmt hx hnd]
    · rw [process_err_dup opts cfg env o₁ w fmt hx hnd,
        process_err_dup opts cfg env o₂ w fmt hx hnd]

/-- Claim C2: for every successful build, the outer container holds
exactly three members, in exactly this order: the package-format
marker, the compressed control sub-archive named control.tar followed
by the format extension, and the compressed data sub-archive named
data.tar followed by the format extension. -/
theorem outer_member_order (opts : CliOptions) (cfg : Config) (env : Env)
    (order : Bool) (w : World) (ms : List ArMember)
    (h1 : (process opts cfg env order w).2.2 = Except.ok ())
    (h2 : (process opts cfg env order w).1.outputFile = some ms) :
    ∃ e₁ e₂ ctrl dat, (e₁ = "gz" ∨ e₁ = "xz") ∧ (e₂ = "gz" ∨ e₂ = "xz") ∧
      ms = [⟨"debian-binary", cfg.default_timestamp, strBytes "2.0\n"⟩,
            ⟨"control.tar." ++ e₁, cfg.default_timestamp, ctrl⟩,
            ⟨"data.tar." ++ e₂, cfg.default_timestamp, dat⟩] := by
  obtain ⟨fmt, hw, -⟩ := process_ok_shape opts cfg env order w h1
  rw [hw] at h2
  simp only [Option.some.injEq] at h2
  refine ⟨fmt.extension, fmt.extension, (controlBlob cfg fmt).bytes,
    (dataBlob cfg fmt).bytes, ?_, ?_, ?_⟩
  · cases fmt <;> simp [Format.extension]
  · cases fmt <;> simp [Format.extension]
  · rw [← h2]
    rfl

theorem outer_member_order_witness :
    ∃ ms, (process opts0 cfg0 env0 true World.init).1.outputFile = some ms ∧
      ∃ e₁ e₂ ctrl dat, (e₁ = "gz" ∨ e₁ = "xz") ∧ (e₂ = "gz" ∨ e₂ = "xz") ∧
        ms = [⟨"debian-binary", cfg0.default_timestamp, strBytes "2.0\n"⟩,
              ⟨"control.tar." ++ e₁, cfg0.default_timestamp, ctrl⟩,
              ⟨"data.tar." ++ e₂, cfg0.default_timestamp, dat⟩] := by
  have h2 : (process opts0 cfg0 env0 true World.init).1.outputFile =
      some (successMembers cfg0 Format.gz) := by
    rw [process_success_eq opts0 cfg0 env0 true World.init Format.gz rfl (by decide)]
  exact ⟨successMembers cfg0 Format.gz, h2,
    outer_member_order opts0 cfg0 env0 true World.init (successMembers cfg0 Format.gz) rfl h2⟩

/-- Claim C3: for every build, regardless of input, the payload of the
first outer-container member (the package-format marker) equals the
fixed literal version string 2.0 followed by a newline. -/
theorem marker_content (opts : CliOptions) (cfg : Config) (env : Env)
    (order : Bool) (w : World) (ms : List ArMember)
    (h1 : (process opts cfg env order w).2.2 = Except.ok ())
    (h2 : (process opts cfg env order w).1.outputFile = some ms) :
    ms.head?.map (fun m => m.payload) = some (strBytes "2.0\n") ∧
    strBytes "2.0\n" = [50, 46, 48, 10] := by
  obtain ⟨fmt, hw, -⟩ := process_ok_shape opts cfg env order w h1
  rw [hw] at h2
  simp only [Option.some.injEq] at h2
  constructor
  · rw [← h2]
    rfl
  · decide

theorem marker_content_witness :
    ∃ ms, (process opts0 cfg0 env0 true World.init).1.outputFile = some ms ∧
      (ms.head?.map (fun m => m.payload) = some (strBytes "2.0\n") ∧
       strBytes "2.0\n" = [50, 46, 48, 10]) := by
  have h2 : (process opts0 cfg0 env0 true World.init).1.outputFile =
      some (successMembers cfg0 Format.gz) := by
    rw [process_success_eq opts0 cfg0 env0 true World.init Format.gz rfl (by decide)]
  exact ⟨successMembers cfg0 Format.gz, h2,
    marker_content opts0 cfg0 env0 true World.init (successMembers cfg0 Format.gz) rfl h2⟩

/-- Claim C10: in every build the control sub-archive and the data
sub-archive use the same compression format, hence the same filename
extension, because both compression sinks are constructed from the
identical policy flags. -/
theorem control_data_same_extension (opts : CliOptions) (cfg : Config) (env : Env)
    (order : Bool) (w : World) (ms : List ArMember)
    (h1 : (process opts cfg env order w).2.2 = Except.ok ())
    (h2 : (process opts cfg env order w).1.outputFile = some ms) :
    ∃ ext, (ext = "gz" ∨ ext = "xz") ∧
      ms.map (fun m => m.name) =
        ["debian-binary", "control.tar." ++ ext, "data.tar." ++ ext] := by
  obtain ⟨fmt, hw, -⟩ := process_ok_shape opts cfg env order w h1
  rw [hw] at h2
  simp only [Option.some.injEq] at h2
  refine ⟨fmt.extension, ?_, ?_⟩
  · cases fmt <;> simp [Format.extension]
  · rw [← h2]
    rfl

theorem control_data_same_extension_witness :
    ∃ ms, (process opts0 cfg0 env0 true World.init).1.outputFile = some ms ∧
      ∃ ext, (ext = "gz" ∨ ext = "xz") ∧
        ms.map (fun m => m.name) =
          ["debian-binary", "control.tar." ++ ext, "data.tar." ++ ext] := by
  have h2 : (process opts0 cfg0 env0 true World.init).1.outputFile =
      some (successMembers cfg0 Format.gz) := by
    rw [process_success_eq opts0 cfg0 env0 true World.init Format.gz rfl (by decide)]
  exact ⟨successMembers cfg0 Format.gz, h2,
    control_data_same_extension opts0 cfg0 env0 true World.init
      (successMembers cfg0 Format.gz) rfl h2⟩

/-- Claim C4: for every Asset written into the data sub-archive, the
checksum listing contains exactly one entry for that Asset's target
path with a digest matching the written content, and no other entries;
moreover the control builder's checksum step appends exactly the
serialization of that mapping into the control sub-archive. -/
theorem checksum_completeness (fmt : Format) (assets : List Asset) (ts : Nat)
    (c : Compressed) (hashes : List AssetDigest)
    (h : data.generate_archive fmt assets ts = Except.ok (c, hashes)) :
    (∀ a ∈ assets, hashes.filter (fun e => e.path == normalizePath a.target)
        = [⟨normalizePath a.target, md5sum a.content⟩]) ∧
    hashes.length = assets.length ∧
    (∀ e ∈ hashes, ∃ a ∈ assets, e = ⟨normalizePath a.target, md5sum a.content⟩) ∧
    (∀ b : ControlArchiveBuilder, b.state = BuilderState.populated → ∀ cfg : Config,
      b.generate_md5sums cfg hashes = Except.ok ⟨b.format, b.timestamp, BuilderState.finalizable,
        b.entries ++ tarEntry "md5sums" b.timestamp 420 (md5sumsListing hashes)⟩) := by
  rw [data.generate_archive] at h
  split at h
  case isFalse => exact absurd h (by simp)
  case isTrue hnd =>
  simp only [Except.ok.injEq, Prod.mk.injEq] at h
  obtain ⟨-, hh⟩ := h
  subst hh
  refine ⟨?_, ?_, ?_, ?_⟩
  · intro a ha
    have hmem : a ∈ sortedAssets assets := (sortedAssets_perm assets).mem_iff.mpr ha
    exact filter_hashes (sortedAssets assets) hnd a hmem
  · rw [assetHashes, List.length_map, (sortedAssets_perm assets).length_eq]
  · intro e he
    obtain ⟨a, ha, hea⟩ := List.mem_map.mp he
    exact ⟨a, (sortedAssets_perm assets).mem_iff.mp ha, hea.symm⟩
  · intro b hb cfg
    obtain ⟨bf, bt, bs, be⟩ := b
    simp only at hb
    subst hb
    rfl

theorem checksum_completeness_witness :
    (assetHashes [asset0]).filter (fun e => e.path == normalizePath asset0.target)
      = [⟨normalizePath asset0.target, md5sum asset0.content⟩] := by
  have h := checksum_completeness Format.gz [asset0] 1
    ⟨Format.gz, dataTarBody [asset0] 1⟩ (assetHashes [asset0]) rfl
  exact h.1 asset0 (by simp)

/-- Claim C5: for the Control Sub-Archive Builder, calling the
checksum-appending step before generate_archive (that is, on a freshly
created builder) fails with InvalidBuilderState, calling it twice fails
with InvalidBuilderState on the second call, and after finish() any
further call on the builder fails with InvalidBuilderState. -/
theorem control_builder_state_protocol (fmt : Format) (ts : Nat) (cfg cfg' : Config)
    (hashes hashes' : List AssetDigest) (b : ControlArchiveBuilder)
    (b₁ : ControlArchiveBuilder) (c : Compressed) (bc : ControlArchiveBuilder) :
    ((ControlArchiveBuilder.new fmt ts).generate_md5sums cfg hashes =
      Except.error CargoDebError.invalidBuilderState) ∧
    (b.generate_md5sums cfg hashes = Except.ok b₁ →
      b₁.generate_md5sums cfg' hashes' = Except.error CargoDebError.invalidBuilderState) ∧
    (b.finish = Except.ok (c, bc) →
      bc.generate_archive cfg = Except.error CargoDebError.invalidBuilderState ∧
      bc.generate_md5sums cfg hashes = Except.error CargoDebError.invalidBuilderState ∧
      bc.finish = Except.error CargoDebError.invalidBuilderState) := by
  obtain ⟨bf, bt, bs, be⟩ := b
  refine ⟨rfl, ?_, ?_⟩
  · intro h
    cases bs <;> simp only [ControlArchiveBuilder.generate_md5sums] at h
    case populated =>
      simp only [Except.ok.injEq] at h
      subst h
      rfl
    all_goals exact absurd h (by simp)
  · intro h
    cases bs <;> simp only [ControlArchiveBuilder.finish] at h
    case finalizable =>
      simp only [Except.ok.injEq, Prod.mk.injEq] at h
      obtain ⟨-, hbc⟩ := h
      subst hbc
      exact ⟨rfl, rfl, rfl⟩
    all_goals exact absurd h (by simp)

theorem control_builder_state_protocol_witness :
    ((ControlArchiveBuilder.new Format.gz 0).generate_md5sums cfg0 [] =
      Except.error CargoDebError.invalidBuilderState) ∧
    ((⟨Format.gz, 0, BuilderState.finalizable,
        [] ++ tarEntry "md5sums" 0 420 (md5sumsListing [])⟩ :
        ControlArchiveBuilder).generate_md5sums cfg0 [] =
      Except.error CargoDebError.invalidBuilderState) ∧
    ((⟨Format.gz, 0, BuilderState.closed, []⟩ :
        ControlArchiveBuilder).generate_archive cfg0 =
      Except.error CargoDebError.invalidBuilderState) ∧
    ((⟨Format.gz, 0, BuilderState.closed, []⟩ :
        ControlArchiveBuilder).generate_md5sums cfg0 [] =
      Except.error CargoDebError.invalidBuilderState) ∧
    ((⟨Format.gz, 0, BuilderState.closed, []⟩ :
        ControlArchiveBuilder).finish =
      Except.error CargoDebError.invalidBuilderState) := by
  have h₁ := control_builder_state_protocol Format.gz 0 cfg0 cfg0 [] [] bPop
    ⟨Format.gz, 0, BuilderState.finalizable, [] ++ tarEntry "md5sums" 0 420 (md5sumsListing [])⟩
    ⟨Format.gz, [] ++ tarFinish⟩ ⟨Format.gz, 0, BuilderState.closed, []⟩
  have h₂ := control_builder_state_protocol Format.gz 0 cfg0 cfg0 [] [] bFin
    bPop ⟨Format.gz, [] ++ tarFinish⟩ ⟨Format.gz, 0, BuilderState.closed, []⟩
  obtain ⟨ha, hb, -⟩ := h₁
  obtain ⟨-, -, hc⟩ := h₂
  obtain ⟨hc₁, hc₂, hc₃⟩ := hc rfl
  exact ⟨ha, hb rfl, hc₁, hc₂, hc₃⟩

/-- Claim C6: for every input containing two Assets whose normalized
target paths are equal, provided the selected compression backend is
constructible in the environment, the build fails with the
DuplicateTargetPath error and no file is produced at the configured
output path (the output slot of the world is unchanged). -/
theorem duplicate_target_path_fails (opts : CliOptions) (cfg : Config) (env : Env)
    (order : Bool) (w : World) (fmt : Format)
    (hfmt : compress.xz_or_gz opts.fast opts.system_xz env = Except.ok fmt)
    (hdup : ¬ (cfg.assets.map (fun a => normalizePath a.target)).Nodup) :
    (process opts cfg env order w).2.2 = Except.error CargoDebError.duplicateTargetPath ∧
    (process opts cfg env order w).1.outputFile = w.outputFile := by
  have hdup' : ¬ ((sortedAssets cfg.assets).map (fun a => normalizePath a.target)).Nodup := by
    intro hn
    exact hdup (((sortedAssets_perm cfg.assets).map
      (fun a => normalizePath a.target)).nodup_iff.mp hn)
  rw [process_err_dup opts cfg env order w fmt hfmt hdup']
  exact ⟨rfl, rfl⟩

theorem duplicate_target_path_fails_witness :
    (process opts0 cfgDup env0 true World.init).2.2 =
      Except.error CargoDebError.duplicateTargetPath ∧
    (process opts0 cfgDup env0 true World.init).1.outputFile = World.init.outputFile :=
  duplicate_target_path_fails opts0 cfgDup env0 true World.init Format.gz rfl (by decide)

/-- Claim C7, counterexample: a run that ends in an error (duplicate
target paths) leaves the scratch directory in place — the removal step
is only reached on the success path, so the claim that the scratch
directory is removed after every run, success or error, is false. -/
theorem scratch_left_on_error :
    (process opts0 cfgDup env0 true World.init).2.2 =
      Except.error CargoDebError.duplicateTargetPath ∧
    (process opts0 cfgDup env0 true World.init).1.scratchDirExists = true :=
  ⟨rfl, rfl⟩

/-- Claim C7, amended: the scratch directory is reset before the
pipeline starts; it is removed after a run that ends in success, but a
run that ends in an error at any pipeline stage returns with the
scratch directory still in place. -/
theorem scratch_dir_lifecycle (opts : CliOptions) (cfg : Config) (env : Env)
    (order : Bool) (w : World) :
    ((process opts cfg env order w).2.2 = Except.ok () →
      (process opts cfg env order w).1.scratchDirExists = false) ∧
    (∀ e, (process opts cfg env order w).2.2 = Except.error e →
      (process opts cfg env order w).1.scratchDirExists = true) := by
  cases hx : compress.xz_or_gz opts.fast opts.system_xz env with
  | error e =>
    rw [process_err_compression opts cfg env order w e hx]
    exact ⟨fun h => by simp at h, fun e h => rfl⟩
  | ok fmt =>
    by_cases hnd : ((sortedAssets cfg.assets).map (fun a => normalizePath a.target)).Nodup
    · rw [process_success_eq opts cfg env order w fmt hx hnd]
      exact ⟨fun _ => rfl, fun e h => by simp at h⟩
    · rw [process_err_dup opts cfg env order w fmt hx hnd]
      exact ⟨fun h => by simp at h, fun e h => rfl⟩

theorem scratch_dir_lifecycle_witness :
    (process opts0 cfg0 env0 true World.init).1.scratchDirExists = false ∧
    (process opts0 cfgDup env0 true World.init).1.scratchDirExists = true :=
  ⟨(scratch_dir_lifecycle opts0 cfg0 env0 true World.init).1 rfl,
   (scratch_dir_lifecycle opts0 cfgDup env0 true World.init).2
     CargoDebError.duplicateTargetPath rfl⟩

/-- Claim C8, counterexample: a successful concrete run in which the
compression ratio is reported and the assembler does finish, yet no
assembler-finish event ever precedes a ratio report — the ratio is
reported before the assembler's finish, so the claimed order (finish
first, then the ratio report) is false. -/
theorem finish_then_ratio_refuted :
    (process opts0 cfg0 env0 true World.init).2.2 = Except.ok () ∧
    containsRatio (process opts0 cfg0 env0 true World.init).2.1 = true ∧
    containsFinished (process opts0 cfg0 env0 true World.init).2.1 = true ∧
    existsFinishThenRatio (process opts0 cfg0 env0 true World.init).2.1 = false :=
  ⟨rfl, rfl, rfl, rfl⟩

/-- Claim C8, amended: in every successful build the data payload's
compression ratio is reported after the control member is added and
before the data member is added, and the Assembler's finish() is called
after the report — the trace contains the contiguous segment control
add, ratio report, data add, assembler finish, and the scan confirms a
ratio report later followed by the finish. -/
theorem ratio_reported_before_finish (opts : CliOptions) (cfg : Config) (env : Env)
    (order : Bool) (w : World)
    (h : (process opts cfg env order w).2.2 = Except.ok ()) :
    (∃ ext c o pre post, (ext = "gz" ∨ ext = "xz") ∧
      (process opts cfg env order w).2.1 =
        pre ++ [Event.addData ("control.tar." ++ ext), Event.ratioReported c o,
          Event.addData ("data.tar." ++ ext), Event.assemblerFinished] ++ post) ∧
    existsRatioThenFinish (process opts cfg env order w).2.1 = true := by
  obtain ⟨fmt, -, hev⟩ := process_ok_shape opts cfg env order w h
  rw [hev]
  constructor
  · refine ⟨fmt.extension, (dataBlob cfg fmt).len,
      (dataTarBody cfg.assets cfg.default_timestamp).length,
      errEvents opts order ++ [Event.addData "debian-binary"],
      (if opts.quiet then [] else [Event.printedPath cfg.output_path]), ?_, ?_⟩
    · cases fmt <;> simp [Format.extension]
    · simp [successEvents]
  · have hshape : successEvents opts cfg order fmt =
        (errEvents opts order ++ [Event.addData "debian-binary",
          Event.addData ("control.tar." ++ fmt.extension)]) ++
        Event.ratioReported (dataBlob cfg fmt).len
          (dataTarBody cfg.assets cfg.default_timestamp).length ::
        ([Event.addData ("data.tar." ++ fmt.extension)] ++ [Event.assemblerFinished] ++
          (if opts.quiet then [] else [Event.printedPath cfg.output_path])) := by
      simp [successEvents]
    rw [hshape]
    apply existsRatioThenFinish_append
    simp [containsFinished]

theorem ratio_reported_before_finish_witness :
    (∃ ext c o pre post, (ext = "gz" ∨ ext = "xz") ∧
      (process opts0 cfg0 env0 true World.init).2.1 =
        pre ++ [Event.addData ("control.tar." ++ ext), Event.ratioReported c o,
          Event.addData ("data.tar." ++ ext), Event.assemblerFinished] ++ post) ∧
    existsRatioThenFinish (process opts0 cfg0 env0 true World.init).2.1 = true :=
  ratio_reported_before_finish opts0 cfg0 env0 true World.init rfl

/-- Claim C9: in every run that reaches the compression-ratio report
step, the uncompressed size of the data payload (the divisor of the
unguarded integer division) is strictly positive, so the division never
divides by zero. -/
theorem ratio_divisor_positive (opts : CliOptions) (cfg : Config) (env : Env)
    (order : Bool) (w : World) (c o : Nat)
    (h : Event.ratioReported c o ∈ (process opts cfg env order w).2.1) : 0 < o := by
  cases hx : compress.xz_or_gz opts.fast opts.system_xz env with
  | error e =>
    rw [process_err_compression opts cfg env order w e hx] at h
    exact absurd h (ratio_not_in_errEvents opts order c o)
  | ok fmt =>
    by_cases hnd : ((sortedAssets cfg.assets).map (fun a => normalizePath a.target)).Nodup
    · rw [process_success_eq opts cfg env order w fmt hx hnd] at h
      simp only [successEvents] at h
      rcases List.mem_append.mp h with h | h
      · rcases List.mem_append.mp h with h | h
        · rcases List.mem_append.mp h with h | h
          · exact absurd h (ratio_not_in_errEvents opts order c o)
          · simp only [List.mem_cons, List.not_mem_nil, or_false] at h
            rcases h with h | h | h | h
            · exact absurd h (by simp)
            · exact absurd h (by simp)
            · obtain ⟨-, ho⟩ := Event.ratioReported.inj h
              rw [ho]
              exact dataTarBody_length_pos cfg.assets cfg.default_timestamp
            · exact absurd h (by simp)
        · simp at h
      · revert h
        split <;> simp
    · rw [process_err_dup opts cfg env order w fmt hx hnd] at h
      exact absurd h (ratio_not_in_errEvents opts order c o)

theorem ratio_divisor_positive_witness :
    0 < (dataTarBody cfg0.assets cfg0.default_timestamp).length := by
  refine ratio_divisor_positive opts0 cfg0 env0 true World.init
    (dataBlob cfg0 Format.gz).len ((dataTarBody cfg0.assets cfg0.default_timestamp).length) ?_
  rw [process_success_eq opts0 cfg0 env0 true World.init Format.gz rfl (by decide)]
  simp [successEvents]
